import Mathlib

/-!
Verification development for the audit-sheet rule engine of this repository
(`app.py`).  The engine scans a rectangular grid of text cells, applies ten
general formatting rules to every non-blank cell outside the designated
"Breadcrumbs" column, and applies a duplicate check plus a trailing-separator
check to cells inside that column, accumulating per-cell issue records and a
per-rule summary.

Modelling conventions:
* cell text is a `List Char` (`Str`); a missing (NaN) cell is `Option.none`
  and is coerced to the empty text exactly as `str`/`pd.isna` coercion does;
* `row[col_name]` access is modelled positionally (column names paired with
  the row's values in order), which agrees with label lookup whenever the
  column labels are distinct — the spec's data model ("each row is an ordered
  mapping from column identity to a text value") is exactly this;
* Python's character classes (`str.isalpha`, `isupper`, `islower`, `lower`,
  whitespace for `strip`/`split`) are modelled on their ASCII core.
-/

namespace ExcelAudit

/-- Cell text: a list of characters. -/
abbrev Str := List Char

/-- ASCII core of the whitespace class used by Python's `strip` and `split`. -/
def isSpaceChar (c : Char) : Bool :=
  if c.toNat = 32 ∨ (9 ≤ c.toNat ∧ c.toNat ≤ 13) then true else false

/-- ASCII model of Python's `str.isalpha` on a single character. -/
def isAlphaChar (c : Char) : Bool :=
  if (65 ≤ c.toNat ∧ c.toNat ≤ 90) ∨ (97 ≤ c.toNat ∧ c.toNat ≤ 122) then true else false

/-- ASCII model of Python's `str.isupper` on a single character. -/
def isUpperChar (c : Char) : Bool := if 65 ≤ c.toNat ∧ c.toNat ≤ 90 then true else false

/-- ASCII model of Python's `str.islower` on a single character. -/
def isLowerChar (c : Char) : Bool := if 97 ≤ c.toNat ∧ c.toNat ≤ 122 then true else false

/-- ASCII model of Python's `str.lower` on a single character. -/
def toLowerChar (c : Char) : Char :=
  if 65 ≤ c.toNat ∧ c.toNat ≤ 90 then Char.ofNat (c.toNat + 32) else c

/-- Python `text.lstrip()` (ASCII whitespace model). -/
def lstripWS (t : Str) : Str := t.dropWhile isSpaceChar

/-- Python `text.rstrip()` (ASCII whitespace model). -/
def rstripWS (t : Str) : Str := (t.reverse.dropWhile isSpaceChar).reverse

/-- Python `text.strip()` (ASCII whitespace model). -/
def stripWS (t : Str) : Str := rstripWS (lstripWS t)

/-- Python `text.rstrip(" ")`: remove trailing space characters (U+0020) only. -/
def rstripSp (t : Str) : Str := (t.reverse.dropWhile (fun c => c == ' ')).reverse

/-- Helper for `splitWS`: accumulates the current word (reversed) while scanning. -/
def splitWSAux : Str → Str → List Str
  | [], acc => if acc = [] then [] else [acc.reverse]
  | c :: cs, acc =>
    if isSpaceChar c then
      if acc = [] then splitWSAux cs [] else acc.reverse :: splitWSAux cs []
    else splitWSAux cs (c :: acc)

/-- Python `text.split()`: split on whitespace runs, discarding empty words. -/
def splitWS (t : Str) : List Str := splitWSAux t []

/-- Python `chr(65 + d)`: the spreadsheet letter for digit `d`. -/
def letterOf (d : Nat) : Char := Char.ofNat (65 + d)

/-- Fuelled form of the letter loop of `col_index_to_letter`
(`while idx > 0: idx, rem = divmod(idx - 1, 26); letters.append(chr(65 + rem))`,
followed by a reversal).  The fuel argument only forces structural recursion;
`colLetters` supplies enough fuel for it never to run out. -/
def colLettersAux : Nat → Nat → Str
  | _, 0 => []
  | 0, _ + 1 => []
  | fuel + 1, n + 1 => colLettersAux fuel (n / 26) ++ [letterOf (n % 26)]

/-- Letters produced for the 1-based column number `n`. -/
def colLetters (n : Nat) : Str := colLettersAux n n

/-- Embedding of `col_index_to_letter`: zero-based column index to the
spreadsheet column label (bijective base 26 over A–Z). -/
def col_index_to_letter (idx0 : Nat) : Str := colLetters (idx0 + 1)

/-- Embedding of `has_full_stop_issue` (Rule 8): the right-trimmed text ends
with a full stop. -/
def has_full_stop_issue (t : Str) : Bool := (rstripWS t).getLast? == some '.'

/-- Embedding of the inner helper `first_alpha_char` of `is_title_case_issue`. -/
def first_alpha_char (w : Str) : Option Char := w.find? isAlphaChar

/-- Embedding of `is_title_case_issue` (Rule 9): with the trimmed text split
into whitespace-separated words, fires when there are at least two words and
either the first word's first alphabetic character exists and is not
uppercase, or some later word's first alphabetic character is uppercase. -/
def is_title_case_issue (t : Str) : Bool :=
  let words := splitWS (stripWS t)
  if words.length < 2 then false
  else
    match words with
    | [] => false
    | first :: rest =>
      (match first_alpha_char first with
       | some ch => !(isUpperChar ch)
       | none => false)
      || rest.any (fun w =>
           match first_alpha_char w with
           | some ch => isUpperChar ch
           | none => false)

/-- Scans for the two-character substring `xy` (Python `"xy" in text`). -/
def hasSub2 (x y : Char) : Str → Bool
  | a :: b :: rest => (a == x && b == y) || hasSub2 x y (b :: rest)
  | _ => false

/-- Rule 1 condition: `text != text.rstrip(" ")`. -/
def ruleTrailing (t : Str) : Bool := t != rstripSp t

/-- Rule 2 condition: `"  " in text`. -/
def ruleDouble (t : Str) : Bool := hasSub2 ' ' ' ' t

/-- Rule 3 condition: `":" in text`. -/
def ruleColon (t : Str) : Bool := t.contains ':'

/-- Rule 4 condition: `"( " in text`. -/
def ruleParenOpen (t : Str) : Bool := hasSub2 '(' ' ' t

/-- Rule 5 condition: `" )" in text`. -/
def ruleParenClose (t : Str) : Bool := hasSub2 ' ' ')' t

/-- Rule 6 condition: `" -" in text or "- " in text`. -/
def ruleHyphen (t : Str) : Bool := hasSub2 ' ' '-' t || hasSub2 '-' ' ' t

/-- Rule 7 condition: `text.count("(") != text.count(")")`. -/
def ruleBrackets (t : Str) : Bool := t.count '(' != t.count ')'

/-- Rule 10 condition: `any(ord(ch) > 127 for ch in text)`. -/
def ruleNonAscii (t : Str) : Bool := t.any (fun c => decide (127 < c.toNat))

/-- Rule 1 message. -/
def msgTrailing : Str := "Trailing spaces found".data

/-- Rule 2 message. -/
def msgDouble : Str := "Double spaces detected".data

/-- Rule 3 message. -/
def msgColon : Str := "Contains colon \x27:\x27".data

/-- Rule 4 message. -/
def msgParenOpen : Str := "Space after \x27(\x27".data

/-- Rule 5 message. -/
def msgParenClose : Str := "Space before \x27)\x27".data

/-- Rule 6 message. -/
def msgHyphen : Str := "Space around \x27-\x27".data

/-- Rule 7 message. -/
def msgBrackets : Str := "Unbalanced brackets".data

/-- Rule 8 message. -/
def msgFullStop : Str := "Ends with full stop".data

/-- Rule 9 message. -/
def msgTitle : Str := "Title case detected".data

/-- Rule 10 message. -/
def msgNonAscii : Str := "Contains accented or non-ASCII characters".data

/-- Rule 11 message. -/
def msgGt : Str := "Breadcrumb ends with \x27>\x27".data

/-- Rule 12 message: `f"Duplicate breadcrumb (also in {first_cell})"`. -/
def dupMsg (a : Str) : Str := "Duplicate breadcrumb (also in ".data ++ a ++ ")".data

/-- Issues appended to a non-Breadcrumb cell, in the fixed rule order of
lines 136–185 of `app.py`. -/
def generalIssues (t : Str) : List Str :=
  (if ruleTrailing t then [msgTrailing] else [])
    ++ (if ruleDouble t then [msgDouble] else [])
    ++ (if ruleColon t then [msgColon] else [])
    ++ (if ruleParenOpen t then [msgParenOpen] else [])
    ++ (if ruleParenClose t then [msgParenClose] else [])
    ++ (if ruleHyphen t then [msgHyphen] else [])
    ++ (if ruleBrackets t then [msgBrackets] else [])
    ++ (if has_full_stop_issue t then [msgFullStop] else [])
    ++ (if is_title_case_issue t then [msgTitle] else [])
    ++ (if ruleNonAscii t then [msgNonAscii] else [])

/-- Summary counters, one per rule category, mirroring the `summary` dict of
`validate_audit_sheet` (all keys start at 0). -/
structure Summary where
  trailingSpaces : Nat := 0
  doubleSpaces : Nat := 0
  colons : Nat := 0
  spacesAfterOpen : Nat := 0
  spacesBeforeClose : Nat := 0
  spacesAroundHyphen : Nat := 0
  unbalancedBrackets : Nat := 0
  fullStopIssues : Nat := 0
  titleCaseIssues : Nat := 0
  accentsNonAscii : Nat := 0
  breadcrumbEndsGt : Nat := 0
  duplicateBreadcrumbs : Nat := 0
deriving DecidableEq

/-- Numeric value of a boolean rule hit. -/
def b2n (b : Bool) : Nat := if b then 1 else 0

/-- Summary increments produced by one non-Breadcrumb cell. -/
def generalDelta (t : Str) : Summary :=
  { trailingSpaces := b2n (ruleTrailing t)
    doubleSpaces := b2n (ruleDouble t)
    colons := b2n (ruleColon t)
    spacesAfterOpen := b2n (ruleParenOpen t)
    spacesBeforeClose := b2n (ruleParenClose t)
    spacesAroundHyphen := b2n (ruleHyphen t)
    unbalancedBrackets := b2n (ruleBrackets t)
    fullStopIssues := b2n (has_full_stop_issue t)
    titleCaseIssues := b2n (is_title_case_issue t)
    accentsNonAscii := b2n (ruleNonAscii t) }

/-- Pointwise sum of two summaries. -/
def addSummary (a b : Summary) : Summary :=
  { trailingSpaces := a.trailingSpaces + b.trailingSpaces
    doubleSpaces := a.doubleSpaces + b.doubleSpaces
    colons := a.colons + b.colons
    spacesAfterOpen := a.spacesAfterOpen + b.spacesAfterOpen
    spacesBeforeClose := a.spacesBeforeClose + b.spacesBeforeClose
    spacesAroundHyphen := a.spacesAroundHyphen + b.spacesAroundHyphen
    unbalancedBrackets := a.unbalancedBrackets + b.unbalancedBrackets
    fullStopIssues := a.fullStopIssues + b.fullStopIssues
    titleCaseIssues := a.titleCaseIssues + b.titleCaseIssues
    accentsNonAscii := a.accentsNonAscii + b.accentsNonAscii
    breadcrumbEndsGt := a.breadcrumbEndsGt + b.breadcrumbEndsGt
    duplicateBreadcrumbs := a.duplicateBreadcrumbs + b.duplicateBreadcrumbs }

/-- One entry of the `errors` list: cell address, raw cell text, and the
ordered list of issue messages for that cell. -/
structure ErrorRecord where
  cell : Str
  value : Str
  issues : List Str
deriving DecidableEq

/-- Lookup in the first-seen registry (`breadcrumb_seen` dict). -/
def lookupSeen (seen : List (Str × Str)) (k : Str) : Option Str :=
  (seen.find? (fun p => p.1 == k)).map (fun p => p.2)

/-- Breadcrumb-column handling for one cell (lines 111–132 of `app.py`):
returns the issues in rule order (duplicate check, then trailing `>`), the
summary increments, and the updated registry. -/
def pathCellEval (seen : List (Str × Str)) (clean : Str) (addr : Str) :
    List Str × Summary × List (Str × Str) :=
  let norm := clean
  let dupRes : List Str × Nat × List (Str × Str) :=
    if norm = [] then ([], 0, seen)
    else
      match lookupSeen seen norm with
      | some first => ([dupMsg first], 1, seen)
      | none => ([], 0, seen ++ [(norm, addr)])
  let gtHit : Bool := norm.getLast? == some '>'
  (dupRes.1 ++ (if gtHit then [msgGt] else []),
   { breadcrumbEndsGt := b2n gtHit, duplicateBreadcrumbs := dupRes.2.1 },
   dupRes.2.2)

/-- Case-insensitive breadcrumb header test:
`str(col).strip().lower() == "breadcrumbs"`. -/
def matchesBreadcrumb (c : Str) : Bool :=
  (stripWS c).map toLowerChar == "breadcrumbs".data

/-- Detection of the breadcrumb column (lines 90–95 of `app.py`): the first
column whose trimmed, lowercased header is `"breadcrumbs"`, if any. -/
def detectBreadcrumbCol (cols : List Str) : Option Str := cols.find? matchesBreadcrumb

/-- Test of `breadcrumb_col_name is not None and col_name == breadcrumb_col_name`. -/
def isBreadcrumbCell (bcol : Option Str) (name : Str) : Bool :=
  match bcol with
  | some n => name == n
  | none => false

/-- Cell address `f"{col_index_to_letter(col_idx)}{row_idx + 2}"`. -/
def cellAddr (rowIdx colIdx : Nat) : Str :=
  col_index_to_letter colIdx ++ (Nat.repr (rowIdx + 2)).data

/-- Mutable state threaded through the scan: the `errors` list, the `summary`
dict and the `breadcrumb_seen` registry. -/
structure RunState where
  errors : List ErrorRecord
  summary : Summary
  seen : List (Str × Str)
deriving DecidableEq

/-- The record appended for one cell: nothing when the cell matched no rule. -/
def recordList (addr text : Str) (issues : List Str) : List ErrorRecord :=
  if issues = [] then [] else [{ cell := addr, value := text, issues := issues }]

/-- Processing of one cell (the body of the inner loop of
`validate_audit_sheet`): blank cells are skipped; breadcrumb cells get rules
11–12; all other cells get rules 1–10. -/
def processCell (bcol : Option Str) (rowIdx colIdx : Nat) (colName : Str)
    (v : Option Str) (st : RunState) : RunState :=
  let text := v.getD []
  if stripWS text = [] then st
  else
    let clean := stripWS text
    let addr := cellAddr rowIdx colIdx
    if isBreadcrumbCell bcol colName then
      let res := pathCellEval st.seen clean addr
      { errors := st.errors ++ recordList addr text res.1
        summary := addSummary st.summary res.2.1
        seen := res.2.2 }
    else
      { errors := st.errors ++ recordList addr text (generalIssues text)
        summary := addSummary st.summary (generalDelta text)
        seen := st.seen }

/-- Input grid: the column headers and the rows of cell values (a `none`
value is a NaN cell). -/
structure Grid where
  cols : List Str
  rows : List (List (Option Str))

/-- Inner loop of `validate_audit_sheet`: the cells of one row in column
order, with their column indices. -/
def processCellsFrom (bcol : Option Str) (rowIdx : Nat) :
    Nat → List (Str × Option Str) → RunState → RunState
  | _, [], st => st
  | colIdx, p :: rest, st =>
    processCellsFrom bcol rowIdx (colIdx + 1) rest (processCell bcol rowIdx colIdx p.1 p.2 st)

/-- Outer loop of `validate_audit_sheet`: the rows in order with their row
indices. -/
def processRowsFrom (bcol : Option Str) (cols : List Str) :
    Nat → List (List (Option Str)) → RunState → RunState
  | _, [], st => st
  | rowIdx, r :: rs, st =>
    processRowsFrom bcol cols (rowIdx + 1) rs (processCellsFrom bcol rowIdx 0 (cols.zip r) st)

/-- Initial scan state: no errors, all counters zero, empty registry. -/
def initState : RunState := { errors := [], summary := {}, seen := [] }

/-- Full scan state after `validate_audit_sheet` runs on a grid. -/
def runAudit (g : Grid) : RunState :=
  processRowsFrom (detectBreadcrumbCol g.cols) g.cols 0 g.rows initState

/-- Embedding of `validate_audit_sheet`: the `(errors, summary)` pair. -/
def validate_audit_sheet (g : Grid) : List ErrorRecord × Summary :=
  ((runAudit g).errors, (runAudit g).summary)

/-! Scan-order view of the grid.  `validate_audit_sheet` visits the cells in
row-major order; `scanOf` lists those visits explicitly so that the run can be
analysed as a single left fold. -/

/-- One visit of the scan: row index, column index, column name, cell value. -/
structure ScanCell where
  row : Nat
  col : Nat
  name : Str
  value : Option Str
deriving DecidableEq

/-- Raw text of a scanned cell (`"" if pd.isna(value) else str(value)`). -/
def textOf (sc : ScanCell) : Str := sc.value.getD []

/-- Address of a scanned cell. -/
def addrOf (sc : ScanCell) : Str := cellAddr sc.row sc.col

/-- One step of the scan as a fold function. -/
def stepCell (bcol : Option Str) (st : RunState) (sc : ScanCell) : RunState :=
  processCell bcol sc.row sc.col sc.name sc.value st

/-- Scan cells of one row, starting at a given column index. -/
def scanCells (rowIdx : Nat) : Nat → List (Str × Option Str) → List ScanCell
  | _, [] => []
  | colIdx, p :: rest => ⟨rowIdx, colIdx, p.1, p.2⟩ :: scanCells rowIdx (colIdx + 1) rest

/-- Scan cells of all rows, starting at a given row index. -/
def scanRows (cols : List Str) : Nat → List (List (Option Str)) → List ScanCell
  | _, [] => []
  | rowIdx, r :: rs => scanCells rowIdx 0 (cols.zip r) ++ scanRows cols (rowIdx + 1) rs

/-- The full scan order of a grid. -/
def scanOf (g : Grid) : List ScanCell := scanRows g.cols 0 g.rows

/-- Issues, summary increments and updated registry produced by one scanned
cell from a given registry state. -/
def cellOut (bcol : Option Str) (seen : List (Str × Str)) (sc : ScanCell) :
    List Str × Summary × List (Str × Str) :=
  let text := textOf sc
  if stripWS text = [] then ([], {}, seen)
  else if isBreadcrumbCell bcol sc.name then pathCellEval seen (stripWS text) (addrOf sc)
  else (generalIssues text, generalDelta text, seen)

/-- Error records contributed by a list of scanned cells, starting from a
given registry state. -/
def newErrors (bcol : Option Str) : List (Str × Str) → List ScanCell → List ErrorRecord
  | _, [] => []
  | seen, sc :: rest =>
    recordList (addrOf sc) (textOf sc) (cellOut bcol seen sc).1
      ++ newErrors bcol (cellOut bcol seen sc).2.2 rest

/-- Summary increments contributed by a list of scanned cells. -/
def newDelta (bcol : Option Str) : List (Str × Str) → List ScanCell → Summary
  | _, [] => {}
  | seen, sc :: rest =>
    addSummary (cellOut bcol seen sc).2.1 (newDelta bcol (cellOut bcol seen sc).2.2 rest)

/-- Registry state after a list of scanned cells. -/
def foldSeen (bcol : Option Str) : List (Str × Str) → List ScanCell → List (Str × Str)
  | seen, [] => seen
  | seen, sc :: rest => foldSeen bcol (cellOut bcol seen sc).2.2 rest

theorem addSummary_zero_right (s : Summary) : addSummary s {} = s := rfl

theorem addSummary_zero_left (s : Summary) : addSummary {} s = s := by
  cases s
  simp [addSummary]

theorem addSummary_assoc (a b c : Summary) :
    addSummary (addSummary a b) c = addSummary a (addSummary b c) := by
  simp [addSummary, Nat.add_assoc]

/-- One scan step, written in assembled form: the errors list grows by the
cell's record (if any), the summary grows by the cell's increments, and the
registry becomes the cell's updated registry. -/
theorem stepCell_eq (bcol : Option Str) (st : RunState) (sc : ScanCell) :
    stepCell bcol st sc =
      { errors := st.errors ++ recordList (addrOf sc) (textOf sc) (cellOut bcol st.seen sc).1
        summary := addSummary st.summary (cellOut bcol st.seen sc).2.1
        seen := (cellOut bcol st.seen sc).2.2 } := by
  by_cases h1 : stripWS (sc.value.getD []) = []
  · cases st
    simp [stepCell, processCell, cellOut, textOf, addrOf, h1, recordList, addSummary_zero_right]
  · by_cases h2 : isBreadcrumbCell bcol sc.name
    · simp [stepCell, processCell, cellOut, textOf, addrOf, h1, h2]
    · simp [stepCell, processCell, cellOut, textOf, addrOf, h1, h2]

/-- Characterisation of the whole scan fold. -/
theorem foldl_stepCell_eq (bcol : Option Str) :
    ∀ (l : List ScanCell) (st : RunState),
      l.foldl (stepCell bcol) st =
        { errors := st.errors ++ newErrors bcol st.seen l
          summary := addSummary st.summary (newDelta bcol st.seen l)
          seen := foldSeen bcol st.seen l }
  | [], st => by
    simp [newErrors, newDelta, foldSeen, addSummary_zero_right]
  | sc :: rest, st => by
    rw [List.foldl_cons, foldl_stepCell_eq bcol rest, stepCell_eq]
    simp [newErrors, newDelta, foldSeen, List.append_assoc, addSummary_assoc]

theorem processCellsFrom_eq (bcol : Option Str) (rowIdx : Nat) :
    ∀ (ps : List (Str × Option Str)) (colIdx : Nat) (st : RunState),
      processCellsFrom bcol rowIdx colIdx ps st =
        (scanCells rowIdx colIdx ps).foldl (stepCell bcol) st
  | [], _, _ => rfl
  | p :: rest, colIdx, st => by
    rw [processCellsFrom, scanCells, List.foldl_cons,
      processCellsFrom_eq bcol rowIdx rest (colIdx + 1)]
    rfl

theorem processRowsFrom_eq (bcol : Option Str) (cols : List Str) :
    ∀ (rows : List (List (Option Str))) (rowIdx : Nat) (st : RunState),
      processRowsFrom bcol cols rowIdx rows st =
        (scanRows cols rowIdx rows).foldl (stepCell bcol) st
  | [], _, _ => rfl
  | r :: rs, rowIdx, st => by
    rw [processRowsFrom, scanRows, List.foldl_append,
      processRowsFrom_eq bcol cols rs (rowIdx + 1), processCellsFrom_eq]

/-- The validation run is the scan fold from the initial state. -/
theorem runAudit_eq (g : Grid) :
    runAudit g = (scanOf g).foldl (stepCell (detectBreadcrumbCol g.cols)) initState := by
  rw [runAudit, scanOf, processRowsFrom_eq]

/-! Registry (first-seen) characterisation. -/

/-- Entries that the scan of `l` offers to the registry: one `(normalised
text, address)` pair per non-blank breadcrumb-column cell, in scan order. -/
def pathEntriesOf (bcol : Option Str) (l : List ScanCell) : List (Str × Str) :=
  l.filterMap (fun sc =>
    if stripWS (textOf sc) ≠ [] ∧ isBreadcrumbCell bcol sc.name = true
    then some (stripWS (textOf sc), addrOf sc) else none)

/-- Insert a key/value pair unless the key is already present. -/
def insertIfAbsent (seen : List (Str × Str)) (e : Str × Str) : List (Str × Str) :=
  if (lookupSeen seen e.1).isSome then seen else seen ++ [e]

/-- Insert a list of entries in order, each unless already present. -/
def insertAll (seen : List (Str × Str)) (es : List (Str × Str)) : List (Str × Str) :=
  es.foldl insertIfAbsent seen

/-- Value of the first entry of `es` with key `k`. -/
def firstVal (es : List (Str × Str)) (k : Str) : Option Str :=
  (es.find? (fun e => e.1 == k)).map (fun e => e.2)

/-- First-some choice on options. -/
def orElseO (a b : Option Str) : Option Str :=
  match a with
  | some x => some x
  | none => b

theorem cellOut_seen (bcol : Option Str) (seen : List (Str × Str)) (sc : ScanCell) :
    (cellOut bcol seen sc).2.2 =
      if stripWS (textOf sc) ≠ [] ∧ isBreadcrumbCell bcol sc.name = true
      then insertIfAbsent seen (stripWS (textOf sc), addrOf sc) else seen := by
  by_cases h1 : stripWS (sc.value.getD []) = []
  · simp [cellOut, textOf, h1]
  · by_cases h2 : isBreadcrumbCell bcol sc.name
    · simp only [cellOut, textOf, addrOf, h1, h2, if_true, if_neg, not_false_iff, and_true,
        ne_eq, ite_false, ite_true]
      cases h : lookupSeen seen (stripWS (sc.value.getD [])) with
      | some a => simp [pathCellEval, h1, h, insertIfAbsent]
      | none => simp [pathCellEval, h1, h, insertIfAbsent]
    · simp [cellOut, textOf, h1, h2]

theorem cellOut_fst (bcol : Option Str) (seen : List (Str × Str)) (sc : ScanCell) :
    (cellOut bcol seen sc).1 =
      if stripWS (textOf sc) = [] then []
      else if isBreadcrumbCell bcol sc.name = true
      then (pathCellEval seen (stripWS (textOf sc)) (addrOf sc)).1
      else generalIssues (textOf sc) := by
  by_cases h1 : stripWS (sc.value.getD []) = []
  · simp [cellOut, textOf, h1]
  · by_cases h2 : isBreadcrumbCell bcol sc.name
    · simp [cellOut, textOf, h1, h2]
    · simp [cellOut, textOf, h1, h2]

theorem cellOut_delta (bcol : Option Str) (seen : List (Str × Str)) (sc : ScanCell) :
    (cellOut bcol seen sc).2.1 =
      if stripWS (textOf sc) = [] then {}
      else if isBreadcrumbCell bcol sc.name = true
      then (pathCellEval seen (stripWS (textOf sc)) (addrOf sc)).2.1
      else generalDelta (textOf sc) := by
  by_cases h1 : stripWS (sc.value.getD []) = []
  · simp [cellOut, textOf, h1]
  · by_cases h2 : isBreadcrumbCell bcol sc.name
    · simp [cellOut, textOf, h1, h2]
    · simp [cellOut, textOf, h1, h2]

theorem foldSeen_eq (bcol : Option Str) :
    ∀ (l : List ScanCell) (seen : List (Str × Str)),
      foldSeen bcol seen l = insertAll seen (pathEntriesOf bcol l)
  | [], seen => rfl
  | sc :: rest, seen => by
    rw [foldSeen, foldSeen_eq bcol rest, cellOut_seen]
    by_cases h : stripWS (textOf sc) ≠ [] ∧ isBreadcrumbCell bcol sc.name = true
    · simp [pathEntriesOf, h, insertAll]
    · simp [pathEntriesOf, h, insertAll]

theorem lookup_append_single (seen : List (Str × Str)) (e : Str × Str) (k : Str) :
    lookupSeen (seen ++ [e]) k =
      orElseO (lookupSeen seen k) (if e.1 == k then some e.2 else none) := by
  induction seen with
  | nil =>
    by_cases h : e.1 == k
    · simp [lookupSeen, h, orElseO]
    · simp [lookupSeen, h, orElseO]
  | cons p ps ih =>
    by_cases h : p.1 == k
    · simp [lookupSeen, List.find?, h, orElseO]
    · simpa [lookupSeen, List.find?, h, orElseO] using ih

theorem lookup_insertAll :
    ∀ (es : List (Str × Str)) (seen : List (Str × Str)) (k : Str),
      lookupSeen (insertAll seen es) k = orElseO (lookupSeen seen k) (firstVal es k)
  | [], seen, k => by
    cases h : lookupSeen seen k <;> simp [insertAll, firstVal, orElseO, h]
  | e :: es, seen, k => by
    have step : insertAll seen (e :: es) = insertAll (insertIfAbsent seen e) es := rfl
    rw [step, lookup_insertAll es]
    by_cases he : (lookupSeen seen e.1).isSome
    · have hs : insertIfAbsent seen e = seen := by simp [insertIfAbsent, he]
      rw [hs]
      by_cases hk : e.1 == k
      · have hk' : e.1 = k := by simpa using hk
        subst hk'
        cases h : lookupSeen seen e.1 with
        | some w => simp [firstVal, List.find?, hk, orElseO, h]
        | none => simp [h] at he
      · simp [firstVal, List.find?, hk]
    · have hs : insertIfAbsent seen e = seen ++ [e] := by simp [insertIfAbsent, he]
      rw [hs, lookup_append_single]
      by_cases hk : e.1 == k
      · have hk' : e.1 = k := by simpa using hk
        subst hk'
        have hnone : lookupSeen seen e.1 = none := by
          cases h : lookupSeen seen e.1
          · rfl
          · simp [h] at he
        simp [hnone, orElseO, firstVal, List.find?, hk]
      · simp [firstVal, List.find?, hk, orElseO]
        cases h : lookupSeen seen k <;> simp [orElseO]

/-- After any scan prefix, the registry answers lookups with the address of
the first scanned occurrence of the key. -/
theorem registry_after (bcol : Option Str) (l : List ScanCell) (k : Str) :
    lookupSeen (foldSeen bcol [] l) k = firstVal (pathEntriesOf bcol l) k := by
  rw [foldSeen_eq, lookup_insertAll]
  simp [lookupSeen, orElseO]


/-! Claim C4: the column-label function. -/

theorem colLettersAux_zero (f : Nat) : colLettersAux f 0 = [] := by
  cases f <;> rfl

theorem colLettersAux_congr : ∀ (f₁ f₂ n : Nat), n ≤ f₁ → n ≤ f₂ →
    colLettersAux f₁ n = colLettersAux f₂ n
  | _, _, 0, _, _ => by rw [colLettersAux_zero, colLettersAux_zero]
  | g₁ + 1, g₂ + 1, m + 1, h₁, h₂ => by
    show colLettersAux g₁ (m / 26) ++ [letterOf (m % 26)]
        = colLettersAux g₂ (m / 26) ++ [letterOf (m % 26)]
    rw [colLettersAux_congr g₁ g₂ (m / 26)
      (le_trans (Nat.div_le_self m 26) (Nat.lt_succ_iff.mp h₁))
      (le_trans (Nat.div_le_self m 26) (Nat.lt_succ_iff.mp h₂))]
  | 0, _, m + 1, h₁, _ => absurd h₁ (by omega)
  | _ + 1, 0, m + 1, _, h₂ => absurd h₂ (by omega)
termination_by _ _ n => n
decreasing_by exact Nat.lt_succ_of_le (Nat.div_le_self m 26)

/-- Recursion equation of the letter loop: the letters of `n + 1` are the
letters of `(n + 1 - 1) / 26` followed by the letter of digit `n % 26`. -/
theorem colLetters_succ (n : Nat) :
    colLetters (n + 1) = colLetters (n / 26) ++ [letterOf (n % 26)] := by
  have h : colLetters (n + 1) = colLettersAux n (n / 26) ++ [letterOf (n % 26)] := rfl
  rw [h, colLettersAux_congr n (n / 26) (n / 26) (Nat.div_le_self n 26) (Nat.le_refl _)]
  rfl

/-- Numeric value of a letter string in bijective base 26 (A = 1, …, Z = 26). -/
def lettersVal : Str → Nat
  | [] => 0
  | c :: cs => (c.toNat - 64) * 26 ^ cs.length + lettersVal cs

theorem lettersVal_append_single (l : Str) (c : Char) :
    lettersVal (l ++ [c]) = 26 * lettersVal l + (c.toNat - 64) := by
  induction l with
  | nil => simp [lettersVal]
  | cons d l ih =>
    rw [List.cons_append, lettersVal, lettersVal, ih, List.length_append]
    simp only [List.length_singleton]
    ring

theorem letterOf_toNat (d : Nat) (hd : d < 26) : (letterOf d).toNat = 65 + d := by
  interval_cases d <;> decide

/-- The letter loop is a right inverse of `lettersVal`. -/
theorem lettersVal_colLetters (n : Nat) : lettersVal (colLetters n) = n := by
  induction n using Nat.strong_induction_on with
  | _ n ih =>
    match n with
    | 0 => rfl
    | m + 1 =>
      rw [colLetters_succ, lettersVal_append_single,
        ih (m / 26) (Nat.lt_succ_of_le (Nat.div_le_self m 26)),
        letterOf_toNat (m % 26) (Nat.mod_lt _ (by norm_num))]
      omega

theorem colLetters_chars (n : Nat) : ∀ c ∈ colLetters n, isUpperChar c = true := by
  induction n using Nat.strong_induction_on with
  | _ n ih =>
    match n with
    | 0 => intro c hc; simp [colLetters, colLettersAux] at hc
    | m + 1 =>
      intro c hc
      rw [colLetters_succ] at hc
      rcases List.mem_append.mp hc with hc | hc
      · exact ih (m / 26) (Nat.lt_succ_of_le (Nat.div_le_self m 26)) c hc
      · have hc2 : c = letterOf (m % 26) := by simpa using hc
        have ht : c.toNat = 65 + m % 26 := by
          rw [hc2]; exact letterOf_toNat _ (Nat.mod_lt _ (by norm_num))
        have hm : m % 26 < 26 := Nat.mod_lt _ (by norm_num)
        simp only [isUpperChar, ht]
        rw [if_pos (by omega)]

theorem colLetters_ne_nil (n : Nat) (hn : 0 < n) : colLetters n ≠ [] := by
  match n, hn with
  | m + 1, _ =>
    rw [colLetters_succ]
    simp

/-- Lexicographic comparison of letter strings by code point. -/
def lexLtCh : Str → Str → Bool
  | [], [] => false
  | [], _ :: _ => true
  | _ :: _, [] => false
  | a :: as, b :: bs =>
    if a.toNat < b.toNat then true else if a = b then lexLtCh as bs else false

/-- Length-then-lexicographic strict order on labels: shorter labels come
first, equal-length labels are ordered lexicographically by code point. -/
def llLt (x y : Str) : Prop :=
  x.length < y.length ∨ (x.length = y.length ∧ lexLtCh x y = true)

theorem lexLtCh_append_last_of_lt (p : Str) (x y : Char)
    (h : x.toNat < y.toNat) : lexLtCh (p ++ [x]) (p ++ [y]) = true := by
  induction p with
  | nil => simp [lexLtCh, h]
  | cons a p ih => simp [lexLtCh, ih]

theorem lexLtCh_append_last_mono :
    ∀ (as bs : Str) (x y : Char), as.length = bs.length → lexLtCh as bs = true →
      lexLtCh (as ++ [x]) (bs ++ [y]) = true
  | [], [], _, _, _, h => by simp [lexLtCh] at h
  | [], _ :: _, _, _, hl, _ => by simp at hl
  | _ :: _, [], _, _, hl, _ => by simp at hl
  | a :: as, b :: bs, x, y, hl, h => by
    by_cases hab : a.toNat < b.toNat
    · simp [lexLtCh, hab]
    · by_cases he : a = b
      · have h2 : lexLtCh as bs = true := by simpa [lexLtCh, hab, he] using h
        simp only [List.cons_append]
        simp only [lexLtCh, hab, he, if_neg, ite_true, ite_false, if_true, if_false]
        rw [if_neg (lt_irrefl b.toNat)]
        exact lexLtCh_append_last_mono as bs x y (by simpa using hl) h2
      · exfalso
        simp [lexLtCh, hab, he] at h

/-- Strict monotonicity of the letter loop in the length-then-lexicographic
order. -/
theorem colLetters_llLt (n : Nat) : ∀ m, 0 < m → m < n → llLt (colLetters m) (colLetters n) := by
  induction n using Nat.strong_induction_on with
  | _ n ih =>
    match n with
    | 0 => intro m _ hmn; omega
    | n + 1 =>
      intro m hm hmn
      match m, hm with
      | m + 1, _ =>
        have hmn2 : m < n := by omega
        rw [colLetters_succ m, colLetters_succ n]
        have hq : m / 26 ≤ n / 26 := Nat.div_le_div_right (Nat.le_of_lt hmn2)
        by_cases hqe : m / 26 = n / 26
        · have hr : m % 26 < n % 26 := by omega
          right
          constructor
          · simp [hqe]
          · rw [hqe]
            refine lexLtCh_append_last_of_lt _ _ _ ?_
            rw [letterOf_toNat _ (Nat.mod_lt _ (by norm_num)),
              letterOf_toNat _ (Nat.mod_lt _ (by norm_num))]
            omega
        · have hq2 : m / 26 < n / 26 := lt_of_le_of_ne hq hqe
          by_cases hq1 : m / 26 = 0
          · left
            have hpos : 0 < n / 26 := by omega
            have hlen : 0 < (colLetters (n / 26)).length :=
              List.length_pos.mpr (colLetters_ne_nil _ hpos)
            rw [hq1]
            have h0 : colLetters 0 = [] := rfl
            rw [h0]
            simp only [List.nil_append, List.length_append, List.length_singleton,
              List.length_cons, List.length_nil]
            omega
          · have ihll := ih (n / 26) (Nat.lt_succ_of_le (Nat.div_le_self n 26))
              (m / 26) (Nat.pos_of_ne_zero hq1) hq2
            rcases ihll with hlen | ⟨hlen, hlex⟩
            · left
              simp only [List.length_append, List.length_singleton]
              omega
            · right
              constructor
              · simp only [List.length_append, List.length_singleton]
                omega
              · exact lexLtCh_append_last_mono _ _ _ _ hlen hlex

/-- Claim C4: `col_index_to_letter` is the conventional bijective base-26
column labelling: it always returns a non-empty string of letters A–Z, it is
injective, it is strictly increasing in the length-then-lexicographic order
on labels, and it sends 0, 25, 26, 701 to A, Z, AA, ZZ. -/
theorem c4_col_index_to_letter_bijective_base26 :
    (∀ n : Nat, col_index_to_letter n ≠ [] ∧
      ∀ c ∈ col_index_to_letter n, isUpperChar c = true)
    ∧ (∀ m n : Nat, col_index_to_letter m = col_index_to_letter n → m = n)
    ∧ (∀ m n : Nat, m < n → llLt (col_index_to_letter m) (col_index_to_letter n))
    ∧ col_index_to_letter 0 = "A".data
    ∧ col_index_to_letter 25 = "Z".data
    ∧ col_index_to_letter 26 = "AA".data
    ∧ col_index_to_letter 701 = "ZZ".data := by
  refine ⟨?_, ?_, ?_, by decide, by decide, by decide, by decide⟩
  · intro n
    exact ⟨colLetters_ne_nil (n + 1) (Nat.succ_pos n), colLetters_chars (n + 1)⟩
  · intro m n h
    have h2 := congrArg lettersVal h
    simp only [col_index_to_letter] at h2
    rw [lettersVal_colLetters, lettersVal_colLetters] at h2
    omega
  · intro m n h
    exact colLetters_llLt (n + 1) (m + 1) (Nat.succ_pos m) (by omega)

/-- Witness for C4 at indices 26 and 701: the label of column 26 precedes the
label of column 701 in the length-then-lexicographic order. -/
theorem c4_col_index_to_letter_bijective_base26_witness :
    llLt (col_index_to_letter 26) (col_index_to_letter 701) :=
  c4_col_index_to_letter_bijective_base26.2.2.1 26 701 (by decide)

/-! Message bookkeeping. -/

/-- The ten fixed messages of the general rules 1–10, in rule order. -/
def generalMsgs : List Str :=
  [msgTrailing, msgDouble, msgColon, msgParenOpen, msgParenClose, msgHyphen,
   msgBrackets, msgFullStop, msgTitle, msgNonAscii]

theorem mem_iteSingle {c : Prop} [Decidable c] {x m : Str}
    (h : m ∈ (if c then [x] else [])) : m = x := by
  by_cases hc : c
  · simpa [hc] using h
  · simp [hc] at h

theorem generalIssues_subset (t : Str) (m : Str) (hm : m ∈ generalIssues t) :
    m ∈ generalMsgs := by
  simp only [generalIssues, List.mem_append] at hm
  rcases hm with (((((((((h | h) | h) | h) | h) | h) | h) | h) | h) | h) <;>
    rw [mem_iteSingle h] <;> simp [generalMsgs]

theorem pathIssues_subset (seen : List (Str × Str)) (clean addr m : Str)
    (hm : m ∈ (pathCellEval seen clean addr).1) :
    (∃ a, m = dupMsg a) ∨ m = msgGt := by
  by_cases h0 : clean = []
  · simp only [pathCellEval, h0, if_true, ite_true] at hm
    simp only [List.nil_append] at hm
    exact Or.inr (mem_iteSingle hm)
  · cases h : lookupSeen seen clean with
    | some a =>
      simp only [pathCellEval, h0, h, if_neg, ite_false, List.mem_append,
        List.mem_singleton, not_false_iff] at hm
      rcases hm with hm | hm
      · exact Or.inl ⟨a, hm⟩
      · exact Or.inr (mem_iteSingle hm)
    | none =>
      simp only [pathCellEval, h0, h, if_neg, ite_false, List.nil_append,
        not_false_iff] at hm
      exact Or.inr (mem_iteSingle hm)

theorem dupMsg_take2 (a : Str) : (dupMsg a).take 2 = ['D', 'u'] := rfl

theorem dupMsg_ne_general (a m : Str) (hm : m ∈ generalMsgs) : dupMsg a ≠ m := by
  intro heq
  have h2 : (dupMsg a).take 2 = m.take 2 := by rw [heq]
  rw [dupMsg_take2] at h2
  fin_cases hm <;> exact absurd h2 (by decide)

theorem dupMsg_ne_gt (a : Str) : dupMsg a ≠ msgGt := by
  intro heq
  have h2 : (dupMsg a).take 2 = msgGt.take 2 := by rw [heq]
  rw [dupMsg_take2] at h2
  exact absurd h2 (by decide)

theorem recordList_mem (addr text : Str) (issues : List Str) (r : ErrorRecord)
    (h : r ∈ recordList addr text issues) : r.issues = issues := by
  by_cases h0 : issues = []
  · simp [recordList, h0] at h
  · simp only [recordList, h0, if_neg, ite_false, List.mem_singleton, not_false_iff] at h
    rw [h]


/-! Claim C5: the title-case rule. -/

/-- Pointwise-on-members congruence for `List.any`. -/
theorem any_congrOn {α : Type} (l : List α) (p q : α → Bool)
    (h : ∀ x ∈ l, p x = q x) : l.any p = l.any q := by
  induction l with
  | nil => rfl
  | cons a l ih =>
    simp only [List.any_cons, h a (by simp)]
    rw [ih fun x hx => h x (by simp [hx])]

/-- In the ASCII character model every alphabetic character is cased, so
"uppercase" and "not lowercase" agree on alphabetic characters. -/
theorem upper_iff_not_lower (c : Char) (h : isAlphaChar c = true) :
    isUpperChar c = !isLowerChar c := by
  simp only [isAlphaChar] at h
  by_cases hu : 65 ≤ c.toNat ∧ c.toNat ≤ 90
  · have hnl : ¬(97 ≤ c.toNat ∧ c.toNat ≤ 122) := by omega
    simp [isUpperChar, isLowerChar, hu, hnl]
  · have hl : 97 ≤ c.toNat ∧ c.toNat ≤ 122 := by
      by_cases hl2 : 97 ≤ c.toNat ∧ c.toNat ≤ 122
      · exact hl2
      · rw [if_neg (by tauto)] at h
        exact absurd h (by simp)
    simp [isUpperChar, isLowerChar, hu, hl]

/-- Statement of the title-case rule in the words of the specification: the
trimmed text must split into two or more whitespace-separated words; taking
the first alphabetic character of each word (words without one are ignored), the
rule fires iff the first letter of the first word is not uppercase or some later
word starts with a non-lowercase letter.  Defined for comparison with the
source function `is_title_case_issue`. -/
def titleCaseSpec (t : Str) : Bool :=
  let words := splitWS (stripWS t)
  if words.length < 2 then false
  else
    match words with
    | [] => false
    | first :: rest =>
      (match first_alpha_char first with
       | some ch => !(isUpperChar ch)
       | none => false)
      || rest.any (fun w =>
           match first_alpha_char w with
           | some ch => !(isLowerChar ch)
           | none => false)

theorem is_title_case_issue_eq_spec (t : Str) :
    is_title_case_issue t = titleCaseSpec t := by
  cases hw : splitWS (stripWS t) with
  | nil => simp [is_title_case_issue, titleCaseSpec, hw]
  | cons first rest =>
    by_cases hlen : (first :: rest).length < 2
    · have h0 : rest = [] := by
        cases rest
        · rfl
        · simp only [List.length_cons] at hlen
          omega
      subst h0
      simp [is_title_case_issue, titleCaseSpec, hw]
    · simp only [is_title_case_issue, titleCaseSpec, hw, hlen, if_neg, ite_false,
        not_false_iff, if_false]
      congr 1
      refine any_congrOn rest _ _ ?_
      intro w hw2
      cases hf : first_alpha_char w with
      | none => simp [hf]
      | some ch =>
        have hal : isAlphaChar ch = true := List.find?_some hf
        simp [hf, upper_iff_not_lower ch hal]

theorem mem_generalIssues_title (t : Str) :
    msgTitle ∈ generalIssues t ↔ is_title_case_issue t = true := by
  simp only [generalIssues, List.mem_append]
  constructor
  · intro hm
    rcases hm with (((((((((h | h) | h) | h) | h) | h) | h) | h) | h) | h) <;>
      first
        | exact absurd (mem_iteSingle h) (by decide)
        | (by_cases hc : is_title_case_issue t = true
           · exact hc
           · simp [hc] at h)
  · intro h
    simp [h]

/-- Claim C5: the title-case rule fires on a general-column cell exactly when
the trimmed text has two or more whitespace-separated words and, taking each
word, its first alphabetic character (skipping leading non-letters, ignoring
words without letters, hyphens not splitting words), the first letter of the
first word is not uppercase or some later word starts non-lowercase. -/
theorem c5_title_case_rule (t : Str) :
    msgTitle ∈ generalIssues t ↔ titleCaseSpec t = true := by
  rw [mem_generalIssues_title, is_title_case_issue_eq_spec]

/-! Claim C8: blank cells are inert. -/

/-- Claim C8: a cell whose text is empty or whitespace-only leaves the scan
state untouched — no issue, no counter increment, no issue record, in any
column of any grid. -/
theorem c8_blank_cells_skipped (bcol : Option Str) (rowIdx colIdx : Nat)
    (colName : Str) (v : Option Str) (st : RunState)
    (h : stripWS (v.getD []) = []) :
    processCell bcol rowIdx colIdx colName v st = st := by
  simp [processCell, h]

/-- Witness for C8 at the whitespace-only cell `"   "`. -/
theorem c8_blank_cells_skipped_witness :
    processCell none 0 0 "X".data (some "   ".data) initState = initState :=
  c8_blank_cells_skipped none 0 0 "X".data (some "   ".data) initState (by decide)

/-! Claim C10: breadcrumb-column identification. -/

/-- Claim C10: the header match is case-insensitive after trimming; when
several columns match, the first one in column order is designated, and a cell
of any other (hence any later matching, distinct) column is processed exactly
as if no breadcrumb column existed — i.e. by general rules 1–10. -/
theorem c10_first_matching_header_designated :
    (∀ (l₁ : List Str) (n : Str) (l₂ : List Str),
      matchesBreadcrumb n = true →
      (∀ c ∈ l₁, matchesBreadcrumb c = false) →
      detectBreadcrumbCol (l₁ ++ n :: l₂) = some n)
    ∧ (∀ (n name : Str) (rowIdx colIdx : Nat) (v : Option Str) (st : RunState),
      matchesBreadcrumb name = true → name ≠ n →
      processCell (some n) rowIdx colIdx name v st =
        processCell none rowIdx colIdx name v st) := by
  constructor
  · intro l₁ n l₂ hn hl
    induction l₁ with
    | nil => simp [detectBreadcrumbCol, List.find?, hn]
    | cons c cs ih =>
      have hc : matchesBreadcrumb c = false := hl c (by simp)
      have ih2 := ih (fun d hd => hl d (by simp [hd]))
      simpa [detectBreadcrumbCol, List.find?, hc] using ih2
  · intro n name rowIdx colIdx v st _ hne
    have h1 : isBreadcrumbCell (some n) name = false := by
      simp [isBreadcrumbCell, hne]
    have h2 : isBreadcrumbCell none name = false := rfl
    simp [processCell, h1, h2]

/-- Witness for C10: with headers `"Breadcrumbs"` and `"BREADCRUMBS"` (both
matching after trimming and lowercasing), the first is designated and a cell
under the second is processed as a general column. -/
theorem c10_first_matching_header_designated_witness :
    detectBreadcrumbCol ["Breadcrumbs".data, "BREADCRUMBS".data] = some "Breadcrumbs".data
    ∧ processCell (some "Breadcrumbs".data) 0 1 "BREADCRUMBS".data (some "x:".data) initState =
        processCell none 0 1 "BREADCRUMBS".data (some "x:".data) initState :=
  ⟨c10_first_matching_header_designated.1 [] "Breadcrumbs".data ["BREADCRUMBS".data]
      (by decide) (by simp),
   c10_first_matching_header_designated.2 "Breadcrumbs".data "BREADCRUMBS".data 0 1
      (some "x:".data) initState (by decide) (by decide)⟩

/-! Claim C7: the two rule families are mutually exclusive by column. -/

/-- Claim C7: a scan step on a designated breadcrumb-column cell never adds a
record carrying a general-rule message, and a scan step on any other cell
never adds a record carrying a duplicate or trailing-separator message;
moreover the text `"hello world"` yields a title-case record in a general
column and no record at all in the breadcrumb column. -/
theorem c7_rule_families_exclusive :
    (∀ (bcol : Option Str) (st : RunState) (sc : ScanCell),
      isBreadcrumbCell bcol sc.name = true →
      ∀ r ∈ (stepCell bcol st sc).errors, r ∈ st.errors ∨
        ∀ m ∈ r.issues, m ∉ generalMsgs)
    ∧ (∀ (bcol : Option Str) (st : RunState) (sc : ScanCell),
      isBreadcrumbCell bcol sc.name = false →
      ∀ r ∈ (stepCell bcol st sc).errors, r ∈ st.errors ∨
        ∀ m ∈ r.issues, (∀ a, m ≠ dupMsg a) ∧ m ≠ msgGt)
    ∧ validate_audit_sheet
        { cols := ["Breadcrumbs".data, "X".data],
          rows := [[some "hello world".data, some "hello world".data]] } =
      ([{ cell := "B2".data, value := "hello world".data, issues := [msgTitle] }],
       { titleCaseIssues := 1 }) := by
  refine ⟨?_, ?_, by decide⟩
  · intro bcol st sc hb r hr
    rw [stepCell_eq] at hr
    simp only [List.mem_append] at hr
    rcases hr with hr | hr
    · exact Or.inl hr
    · refine Or.inr ?_
      intro m hm
      rw [recordList_mem _ _ _ _ hr, cellOut_fst] at hm
      split at hm
      · simp at hm
      · rcases pathIssues_subset _ _ _ _ hm with ⟨a, rfl⟩ | rfl
        · intro hmem
          exact dupMsg_ne_general a _ hmem rfl
        · intro hmem
          exact absurd hmem (by decide)
  · intro bcol st sc hb r hr
    rw [stepCell_eq] at hr
    simp only [List.mem_append] at hr
    rcases hr with hr | hr
    · exact Or.inl hr
    · refine Or.inr ?_
      intro m hm
      rw [recordList_mem _ _ _ _ hr, cellOut_fst] at hm
      split at hm
      · simp at hm
      · rw [if_neg (by simp [hb])] at hm
        have hg := generalIssues_subset _ _ hm
        constructor
        · intro a heq
          exact dupMsg_ne_general a m hg heq.symm
        · intro heq
          rw [heq] at hg
          revert hg
          decide


/-- Witness for C7 at the breadcrumb cell `"a>"`: the message it produces is
not a general-rule message. -/
theorem c7_rule_families_exclusive_witness : msgGt ∉ generalMsgs := by
  have h := c7_rule_families_exclusive.1 (some "Breadcrumbs".data) initState
    ⟨0, 0, "Breadcrumbs".data, some "a>".data⟩ (by decide)
    { cell := "A2".data, value := "a>".data, issues := [msgGt] } (by decide)
  exact (h.resolve_left (by decide)) msgGt (by decide)


/-! Claim C6: the trailing-whitespace rule. -/

theorem mem_generalIssues_trailing (t : Str) :
    msgTrailing ∈ generalIssues t ↔ ruleTrailing t = true := by
  simp only [generalIssues, List.mem_append]
  constructor
  · intro hm
    rcases hm with (((((((((h | h) | h) | h) | h) | h) | h) | h) | h) | h) <;>
      first
        | exact absurd (mem_iteSingle h) (by decide)
        | (by_cases hc : ruleTrailing t = true
           · exact hc
           · simp [hc] at h)
  · intro h
    simp [h]

/-- Claim C6 as amended: for a general-column cell the trailing-whitespace
rule fires exactly when the text differs from the text with its trailing
space characters (U+0020 only) removed — not trailing whitespace of any
kind. -/
theorem c6_trailing_rule_spaces_only (t : Str) :
    msgTrailing ∈ generalIssues t ↔ t ≠ rstripSp t := by
  rw [mem_generalIssues_trailing]
  simp [ruleTrailing, bne_iff_ne]

/-- Counterexample to claim C6 as stated: the cell text `"a\t"` differs from
its right-trimmed form (the tab is whitespace), yet the scan reports no issue
at all — every counter is zero and the record list is empty — because the
code right-trims with `rstrip(" ")`, spaces only. -/
theorem c6_trailing_rule_counterexample :
    "a\t".data ≠ rstripWS "a\t".data
    ∧ validate_audit_sheet { cols := ["X".data], rows := [[some "a\t".data]] } =
        ([], {}) := by
  constructor
  · decide
  · decide

/-! Claim C1: the duplicate-detection lookup key. -/

/-- Join words with single spaces (used by the spec-side normalisation). -/
def joinWords : List Str → Str
  | [] => []
  | [w] => w
  | w :: ws => w ++ ' ' :: joinWords ws

/-- Modelled from the words of the spec, for comparison with the key the code uses:
trim, collapse internal whitespace runs to single spaces, and case-fold. -/
def specNormalize (t : Str) : Str := (joinWords (splitWS t)).map toLowerChar

/-- A one-column breadcrumb grid with two rows holding the two given texts. -/
def twoCellBreadcrumbGrid (t1 t2 : Str) : Grid :=
  { cols := ["Breadcrumbs".data], rows := [[some t1], [some t2]] }

/-- Counterexample to claim C1 as stated: `"A > B"` and `"a  >  b"` are equal
under the normalisation of the spec (collapse whitespace runs, case-fold), yet the
run reports no duplicate at all: the code keys the registry on the merely
trimmed text. -/
theorem c1_duplicate_key_counterexample :
    specNormalize "A > B".data = specNormalize "a  >  b".data
    ∧ validate_audit_sheet (twoCellBreadcrumbGrid "A > B".data "a  >  b".data) =
        ([], {}) := by
  constructor
  · decide
  · decide

/-- Claim C1 as amended: the duplicate-detection lookup key is the trimmed
cell text compared exactly — case- and internal-whitespace-sensitive.  In a
two-cell breadcrumb column the duplicate counter is 1 precisely when the two
trimmed texts are equal, and then the second cell carries a duplicate issue
naming the address of the first cell. -/
theorem c1_duplicate_key_exact_trimmed (t1 t2 : Str)
    (h1 : stripWS t1 ≠ []) (h2 : stripWS t2 ≠ []) :
    (validate_audit_sheet (twoCellBreadcrumbGrid t1 t2)).2.duplicateBreadcrumbs =
      (if stripWS t1 = stripWS t2 then 1 else 0)
    ∧ (stripWS t1 = stripWS t2 →
        { cell := "A3".data, value := t2,
          issues := dupMsg "A2".data ::
            (if (stripWS t2).getLast? == some '>' then [msgGt] else []) }
          ∈ (validate_audit_sheet (twoCellBreadcrumbGrid t1 t2)).1) := by
  have hb : detectBreadcrumbCol ["Breadcrumbs".data] = some "Breadcrumbs".data := by decide
  have hbc : isBreadcrumbCell (some "Breadcrumbs".data) "Breadcrumbs".data = true := by decide
  have ha2 : cellAddr 0 0 = "A2".data := by decide
  have ha3 : cellAddr 1 0 = "A3".data := by decide
  by_cases heq : stripWS t1 = stripWS t2
  · constructor
    · simp [validate_audit_sheet, runAudit, twoCellBreadcrumbGrid, hb,
        processRowsFrom, processCellsFrom, processCell,
        h1, h2, heq, hbc, pathCellEval, lookupSeen, List.find?, initState,
        addSummary, b2n, recordList, ha2, ha3]
    · intro _
      simp [validate_audit_sheet, runAudit, twoCellBreadcrumbGrid, hb,
        processRowsFrom, processCellsFrom, processCell,
        h1, h2, heq, hbc, pathCellEval, lookupSeen, List.find?, initState,
        addSummary, b2n, recordList, ha2, ha3]
  · constructor
    · have hne : (stripWS t1 == stripWS t2) = false := by
        simpa using heq
      simp [validate_audit_sheet, runAudit, twoCellBreadcrumbGrid, hb,
        processRowsFrom, processCellsFrom, processCell,
        h1, h2, heq, hne, hbc, pathCellEval, lookupSeen, List.find?, initState,
        addSummary, b2n, recordList, ha2, ha3]
    · intro hc
      exact absurd hc heq

/-- Witness for C1 at `"A > B"` and `"  A > B "`: equal after trimming, so
the second cell is a duplicate of cell A2. -/
theorem c1_duplicate_key_exact_trimmed_witness :
    (validate_audit_sheet
        (twoCellBreadcrumbGrid "A > B".data "  A > B ".data)).2.duplicateBreadcrumbs =
      (if stripWS "A > B".data = stripWS "  A > B ".data then 1 else 0)
    ∧ (stripWS "A > B".data = stripWS "  A > B ".data →
        { cell := "A3".data, value := "  A > B ".data,
          issues := dupMsg "A2".data ::
            (if (stripWS "  A > B ".data).getLast? == some '>' then [msgGt] else []) }
          ∈ (validate_audit_sheet
              (twoCellBreadcrumbGrid "A > B".data "  A > B ".data)).1) :=
  c1_duplicate_key_exact_trimmed "A > B".data "  A > B ".data (by decide) (by decide)

/-! Claim C2: behaviour when no breadcrumb column resolves. -/

theorem newDelta_none_path_fields (l : List ScanCell) :
    ∀ seen, (newDelta none seen l).duplicateBreadcrumbs = 0
      ∧ (newDelta none seen l).breadcrumbEndsGt = 0 := by
  induction l with
  | nil => intro seen; exact ⟨rfl, rfl⟩
  | cons sc rest ih =>
    intro seen
    have hd := cellOut_delta none seen sc
    have hrest := ih (cellOut none seen sc).2.2
    by_cases h1 : stripWS (textOf sc) = []
    · rw [if_pos h1] at hd
      simp [newDelta, addSummary, hd, hrest.1, hrest.2]
    · rw [if_neg h1, if_neg (by simp [isBreadcrumbCell])] at hd
      simp [newDelta, addSummary, hd, hrest.1, hrest.2, generalDelta]

theorem newErrors_none_general (l : List ScanCell) :
    ∀ seen r, r ∈ newErrors none seen l → ∀ m ∈ r.issues, m ∈ generalMsgs := by
  induction l with
  | nil => intro seen r hr; simp [newErrors] at hr
  | cons sc rest ih =>
    intro seen r hr m hm
    simp only [newErrors, List.mem_append] at hr
    rcases hr with hr | hr
    · rw [recordList_mem _ _ _ _ hr, cellOut_fst] at hm
      split at hm
      · simp at hm
      · rw [if_neg (by simp [isBreadcrumbCell])] at hm
        exact generalIssues_subset _ _ hm
    · exact ih _ r hr m hm

/-- Claim C2 as amended: when no column header matches `"breadcrumbs"`, the
run does not fail — it completes normally with the path-column rules silently
skipped: both path counters stay 0 and every reported message is a
general-rule message. -/
theorem c2_missing_path_column_silently_skipped (g : Grid)
    (h : detectBreadcrumbCol g.cols = none) :
    (validate_audit_sheet g).2.duplicateBreadcrumbs = 0
    ∧ (validate_audit_sheet g).2.breadcrumbEndsGt = 0
    ∧ ∀ r ∈ (validate_audit_sheet g).1, ∀ m ∈ r.issues, m ∈ generalMsgs := by
  have hrun : runAudit g = (scanOf g).foldl (stepCell none) initState := by
    rw [runAudit_eq, h]
  rw [validate_audit_sheet, hrun, foldl_stepCell_eq]
  refine ⟨?_, ?_, ?_⟩
  · simp only [initState, addSummary_zero_left]
    exact (newDelta_none_path_fields (scanOf g) []).1
  · simp only [initState, addSummary_zero_left]
    exact (newDelta_none_path_fields (scanOf g) []).2
  · intro r hr m hm
    simp only [initState, List.nil_append] at hr
    exact newErrors_none_general (scanOf g) [] r hr m hm

/-- Counterexample to claim C2 as stated: with the single column `"X"` the
path-column identity does not resolve, yet the run returns a complete,
normal result (no error of any kind, all counters zero) instead of failing
fast — the repeated value `"a>"` is not reported although the path rules
would have flagged it twice. -/
theorem c2_missing_path_column_counterexample :
    detectBreadcrumbCol ["X".data] = none
    ∧ validate_audit_sheet { cols := ["X".data], rows := [[some "a>".data], [some "a>".data]] } =
        ([], {}) := by
  constructor
  · decide
  · decide

/-- Witness for C2 on a concrete one-column grid. -/
theorem c2_missing_path_column_silently_skipped_witness :
    (validate_audit_sheet { cols := ["Y".data], rows := [[some "b:".data]] }).2.duplicateBreadcrumbs = 0
    ∧ (validate_audit_sheet { cols := ["Y".data], rows := [[some "b:".data]] }).2.breadcrumbEndsGt = 0 :=
  ⟨(c2_missing_path_column_silently_skipped _ (by decide)).1,
   (c2_missing_path_column_silently_skipped _ (by decide)).2.1⟩


/-! Claim C3: the First-Seen Registry invariant. -/

/-- State of the scan after processing a given prefix of the scan order. -/
def prefixState (g : Grid) (l : List ScanCell) : RunState :=
  l.foldl (stepCell (detectBreadcrumbCol g.cols)) initState

theorem cellOut_path (bcol : Option Str) (seen : List (Str × Str)) (sc : ScanCell)
    (hb : isBreadcrumbCell bcol sc.name = true)
    (hnb : stripWS (textOf sc) ≠ []) :
    cellOut bcol seen sc = pathCellEval seen (stripWS (textOf sc)) (addrOf sc) := by
  have h1 : ¬ stripWS (sc.value.getD []) = [] := by simpa [textOf] using hnb
  simp [cellOut, textOf, h1, hb]

theorem prefixState_seen (g : Grid) (l : List ScanCell) (k : Str) :
    lookupSeen (prefixState g l).seen k
      = firstVal (pathEntriesOf (detectBreadcrumbCol g.cols) l) k := by
  rw [prefixState, foldl_stepCell_eq]
  exact registry_after _ l k

/-- Claim C3: throughout a run, the registry maps each (code-)normalised path
value to the address of its first occurrence in scan order.  At any scan
position holding a non-blank path cell: if the value was seen before, the
step appends one record whose first issue is a duplicate message naming the
FIRST occurrence (never an intermediate duplicate), leaves the registry
unchanged and increments the duplicate counter by one; if the value is new,
the step emits no duplicate issue, registers value-to-address, and leaves the
counter unchanged. -/
theorem c3_first_seen_registry (g : Grid) (l₁ : List ScanCell) (sc : ScanCell)
    (l₂ : List ScanCell) (_hscan : scanOf g = l₁ ++ sc :: l₂)
    (hb : isBreadcrumbCell (detectBreadcrumbCol g.cols) sc.name = true)
    (hnb : stripWS (textOf sc) ≠ []) :
    (∀ k, lookupSeen (prefixState g l₁).seen k
        = firstVal (pathEntriesOf (detectBreadcrumbCol g.cols) l₁) k)
    ∧ (match firstVal (pathEntriesOf (detectBreadcrumbCol g.cols) l₁)
          (stripWS (textOf sc)) with
       | some a₀ =>
          (stepCell (detectBreadcrumbCol g.cols) (prefixState g l₁) sc).errors
              = (prefixState g l₁).errors
                ++ [{ cell := addrOf sc, value := textOf sc,
                      issues := dupMsg a₀ ::
                        (if (stripWS (textOf sc)).getLast? == some '>'
                         then [msgGt] else []) }]
          ∧ (stepCell (detectBreadcrumbCol g.cols) (prefixState g l₁) sc).seen
              = (prefixState g l₁).seen
          ∧ (stepCell (detectBreadcrumbCol g.cols) (prefixState g l₁) sc).summary.duplicateBreadcrumbs
              = (prefixState g l₁).summary.duplicateBreadcrumbs + 1
       | none =>
          (stepCell (detectBreadcrumbCol g.cols) (prefixState g l₁) sc).errors
              = (prefixState g l₁).errors
                ++ (if (stripWS (textOf sc)).getLast? == some '>'
                    then [{ cell := addrOf sc, value := textOf sc, issues := [msgGt] }]
                    else [])
          ∧ (stepCell (detectBreadcrumbCol g.cols) (prefixState g l₁) sc).seen
              = (prefixState g l₁).seen ++ [(stripWS (textOf sc), addrOf sc)]
          ∧ (stepCell (detectBreadcrumbCol g.cols) (prefixState g l₁) sc).summary.duplicateBreadcrumbs
              = (prefixState g l₁).summary.duplicateBreadcrumbs) := by
  refine ⟨prefixState_seen g l₁, ?_⟩
  have hstep := stepCell_eq (detectBreadcrumbCol g.cols) (prefixState g l₁) sc
  have hcell := cellOut_path (detectBreadcrumbCol g.cols) (prefixState g l₁).seen sc hb hnb
  cases hfv : firstVal (pathEntriesOf (detectBreadcrumbCol g.cols) l₁) (stripWS (textOf sc)) with
  | some a₀ =>
    have hl : lookupSeen (prefixState g l₁).seen (stripWS (textOf sc)) = some a₀ := by
      rw [prefixState_seen g l₁, hfv]
    have hpe : pathCellEval (prefixState g l₁).seen (stripWS (textOf sc)) (addrOf sc)
        = (dupMsg a₀ ::
            (if (stripWS (textOf sc)).getLast? == some '>' then [msgGt] else []),
           { breadcrumbEndsGt :=
               b2n ((stripWS (textOf sc)).getLast? == some '>'),
             duplicateBreadcrumbs := 1 },
           (prefixState g l₁).seen) := by
      simp [pathCellEval, hnb, hl]
    rw [hstep, hcell, hpe]
    refine ⟨?_, rfl, ?_⟩
    · simp [recordList]
    · simp [addSummary]
  | none =>
    have hl : lookupSeen (prefixState g l₁).seen (stripWS (textOf sc)) = none := by
      rw [prefixState_seen g l₁, hfv]
    have hpe : pathCellEval (prefixState g l₁).seen (stripWS (textOf sc)) (addrOf sc)
        = ((if (stripWS (textOf sc)).getLast? == some '>' then [msgGt] else []),
           { breadcrumbEndsGt :=
               b2n ((stripWS (textOf sc)).getLast? == some '>'),
             duplicateBreadcrumbs := 0 },
           (prefixState g l₁).seen ++ [(stripWS (textOf sc), addrOf sc)]) := by
      simp [pathCellEval, hnb, hl]
    rw [hstep, hcell, hpe]
    refine ⟨?_, rfl, ?_⟩
    · by_cases hgt : ((stripWS (textOf sc)).getLast? == some '>') = true
      · simp [recordList, hgt]
      · simp [recordList, hgt]
    · simp [addSummary]

/-- Witness for C3 on a breadcrumb column holding `"A > B"` three times: at
the third cell the registry still answers with the address A2 of the FIRST
occurrence (not A3), and the duplicate counter increments. -/
theorem c3_first_seen_registry_witness :
    lookupSeen (prefixState
        { cols := ["Breadcrumbs".data],
          rows := [[some "A > B".data], [some "A > B".data], [some "A > B".data]] }
        [{ row := 0, col := 0, name := "Breadcrumbs".data, value := some "A > B".data },
         { row := 1, col := 0, name := "Breadcrumbs".data, value := some "A > B".data }]).seen
      "A > B".data = some "A2".data
    ∧ (stepCell (detectBreadcrumbCol ["Breadcrumbs".data])
        (prefixState
          { cols := ["Breadcrumbs".data],
            rows := [[some "A > B".data], [some "A > B".data], [some "A > B".data]] }
          [{ row := 0, col := 0, name := "Breadcrumbs".data, value := some "A > B".data },
           { row := 1, col := 0, name := "Breadcrumbs".data, value := some "A > B".data }])
        { row := 2, col := 0, name := "Breadcrumbs".data, value := some "A > B".data }).summary.duplicateBreadcrumbs
      = (prefixState
          { cols := ["Breadcrumbs".data],
            rows := [[some "A > B".data], [some "A > B".data], [some "A > B".data]] }
          [{ row := 0, col := 0, name := "Breadcrumbs".data, value := some "A > B".data },
           { row := 1, col := 0, name := "Breadcrumbs".data, value := some "A > B".data }]).summary.duplicateBreadcrumbs + 1 := by
  have h := c3_first_seen_registry
    { cols := ["Breadcrumbs".data],
      rows := [[some "A > B".data], [some "A > B".data], [some "A > B".data]] }
    [{ row := 0, col := 0, name := "Breadcrumbs".data, value := some "A > B".data },
     { row := 1, col := 0, name := "Breadcrumbs".data, value := some "A > B".data }]
    { row := 2, col := 0, name := "Breadcrumbs".data, value := some "A > B".data }
    [] (by decide) (by decide) (by decide)
  refine ⟨(h.1 "A > B".data).trans (by decide), ?_⟩
  have h2 := h.2
  exact h2.2.2


/-! Claim C9: Summary counters are per-category issue totals. -/

/-- Recognises a duplicate-breadcrumb message by its fixed 20-character
prefix. -/
def isDupMsgB (s : Str) : Bool := s.take 20 == "Duplicate breadcrumb".data

theorem count_ite_single_eq (c : Prop) [Decidable c] (x : Str) :
    (if c then [x] else []).count x = if c then 1 else 0 := by
  split
  · simp [List.count_cons]
  · simp

theorem count_ite_single_ne (x m : Str) (h : x ≠ m) (c : Prop) [Decidable c] :
    (if c then [x] else []).count m = 0 := by
  split
  · simp [List.count_cons, h]
  · simp

theorem countP_ite_single_false (x : Str) (h : isDupMsgB x = false) (c : Prop) [Decidable c] :
    (if c then [x] else []).countP isDupMsgB = 0 := by
  split
  · simp [List.countP_cons, h]
  · simp

theorem count_cons_ne (x m : Str) (h : x ≠ m) (l : List Str) :
    (x :: l).count m = l.count m := by
  simp [List.count_cons, h]

theorem countP_cons_true (x : Str) (h : isDupMsgB x = true) (l : List Str) :
    (x :: l).countP isDupMsgB = l.countP isDupMsgB + 1 := by
  simp [List.countP_cons, h]

theorem dupMsg_take20 (a : Str) : (dupMsg a).take 20 = "Duplicate breadcrumb".data := by
  have h0 : ("Duplicate breadcrumb (also in ".data : Str)
      = "Duplicate breadcrumb".data ++ " (also in ".data := by decide
  have h1 : dupMsg a
      = "Duplicate breadcrumb".data ++ (" (also in ".data ++ a ++ ")".data) := by
    simp [dupMsg, h0]
  rw [h1, List.take_append_eq_append_take]
  rw [show ("Duplicate breadcrumb".data : Str).take 20 = "Duplicate breadcrumb".data from by decide]
  rw [show 20 - ("Duplicate breadcrumb".data : Str).length = 0 from by decide]
  rw [List.take_zero, List.append_nil]

theorem isDupMsgB_dupMsg (a : Str) : isDupMsgB (dupMsg a) = true := by
  simp [isDupMsgB, dupMsg_take20]

theorem generalIssues_count_trailingSpaces (t : Str) :
    (generalIssues t).count msgTrailing = b2n (ruleTrailing t) := by
  simp only [generalIssues, List.count_append, count_ite_single_eq,
    count_ite_single_ne msgDouble msgTrailing (by decide),
    count_ite_single_ne msgColon msgTrailing (by decide),
    count_ite_single_ne msgParenOpen msgTrailing (by decide),
    count_ite_single_ne msgParenClose msgTrailing (by decide),
    count_ite_single_ne msgHyphen msgTrailing (by decide),
    count_ite_single_ne msgBrackets msgTrailing (by decide),
    count_ite_single_ne msgFullStop msgTrailing (by decide),
    count_ite_single_ne msgTitle msgTrailing (by decide),
    count_ite_single_ne msgNonAscii msgTrailing (by decide),
    Nat.add_zero, Nat.zero_add]
  rfl

theorem generalIssues_count_doubleSpaces (t : Str) :
    (generalIssues t).count msgDouble = b2n (ruleDouble t) := by
  simp only [generalIssues, List.count_append, count_ite_single_eq,
    count_ite_single_ne msgTrailing msgDouble (by decide),
    count_ite_single_ne msgColon msgDouble (by decide),
    count_ite_single_ne msgParenOpen msgDouble (by decide),
    count_ite_single_ne msgParenClose msgDouble (by decide),
    count_ite_single_ne msgHyphen msgDouble (by decide),
    count_ite_single_ne msgBrackets msgDouble (by decide),
    count_ite_single_ne msgFullStop msgDouble (by decide),
    count_ite_single_ne msgTitle msgDouble (by decide),
    count_ite_single_ne msgNonAscii msgDouble (by decide),
    Nat.add_zero, Nat.zero_add]
  rfl

theorem generalIssues_count_colons (t : Str) :
    (generalIssues t).count msgColon = b2n (ruleColon t) := by
  simp only [generalIssues, List.count_append, count_ite_single_eq,
    count_ite_single_ne msgTrailing msgColon (by decide),
    count_ite_single_ne msgDouble msgColon (by decide),
    count_ite_single_ne msgParenOpen msgColon (by decide),
    count_ite_single_ne msgParenClose msgColon (by decide),
    count_ite_single_ne msgHyphen msgColon (by decide),
    count_ite_single_ne msgBrackets msgColon (by decide),
    count_ite_single_ne msgFullStop msgColon (by decide),
    count_ite_single_ne msgTitle msgColon (by decide),
    count_ite_single_ne msgNonAscii msgColon (by decide),
    Nat.add_zero, Nat.zero_add]
  rfl

theorem generalIssues_count_spacesAfterOpen (t : Str) :
    (generalIssues t).count msgParenOpen = b2n (ruleParenOpen t) := by
  simp only [generalIssues, List.count_append, count_ite_single_eq,
    count_ite_single_ne msgTrailing msgParenOpen (by decide),
    count_ite_single_ne msgDouble msgParenOpen (by decide),
    count_ite_single_ne msgColon msgParenOpen (by decide),
    count_ite_single_ne msgParenClose msgParenOpen (by decide),
    count_ite_single_ne msgHyphen msgParenOpen (by decide),
    count_ite_single_ne msgBrackets msgParenOpen (by decide),
    count_ite_single_ne msgFullStop msgParenOpen (by decide),
    count_ite_single_ne msgTitle msgParenOpen (by decide),
    count_ite_single_ne msgNonAscii msgParenOpen (by decide),
    Nat.add_zero, Nat.zero_add]
  rfl

theorem generalIssues_count_spacesBeforeClose (t : Str) :
    (generalIssues t).count msgParenClose = b2n (ruleParenClose t) := by
  simp only [generalIssues, List.count_append, count_ite_single_eq,
    count_ite_single_ne msgTrailing msgParenClose (by decide),
    count_ite_single_ne msgDouble msgParenClose (by decide),
    count_ite_single_ne msgColon msgParenClose (by decide),
    count_ite_single_ne msgParenOpen msgParenClose (by decide),
    count_ite_single_ne msgHyphen msgParenClose (by decide),
    count_ite_single_ne msgBrackets msgParenClose (by decide),
    count_ite_single_ne msgFullStop msgParenClose (by decide),
    count_ite_single_ne msgTitle msgParenClose (by decide),
    count_ite_single_ne msgNonAscii msgParenClose (by decide),
    Nat.add_zero, Nat.zero_add]
  rfl

theorem generalIssues_count_spacesAroundHyphen (t : Str) :
    (generalIssues t).count msgHyphen = b2n (ruleHyphen t) := by
  simp only [generalIssues, List.count_append, count_ite_single_eq,
    count_ite_single_ne msgTrailing msgHyphen (by decide),
    count_ite_single_ne msgDouble msgHyphen (by decide),
    count_ite_single_ne msgColon msgHyphen (by decide),
    count_ite_single_ne msgParenOpen msgHyphen (by decide),
    count_ite_single_ne msgParenClose msgHyphen (by decide),
    count_ite_single_ne msgBrackets msgHyphen (by decide),
    count_ite_single_ne msgFullStop msgHyphen (by decide),
    count_ite_single_ne msgTitle msgHyphen (by decide),
    count_ite_single_ne msgNonAscii msgHyphen (by decide),
    Nat.add_zero, Nat.zero_add]
  rfl

theorem generalIssues_count_unbalancedBrackets (t : Str) :
    (generalIssues t).count msgBrackets = b2n (ruleBrackets t) := by
  simp only [generalIssues, List.count_append, count_ite_single_eq,
    count_ite_single_ne msgTrailing msgBrackets (by decide),
    count_ite_single_ne msgDouble msgBrackets (by decide),
    count_ite_single_ne msgColon msgBrackets (by decide),
    count_ite_single_ne msgParenOpen msgBrackets (by decide),
    count_ite_single_ne msgParenClose msgBrackets (by decide),
    count_ite_single_ne msgHyphen msgBrackets (by decide),
    count_ite_single_ne msgFullStop msgBrackets (by decide),
    count_ite_single_ne msgTitle msgBrackets (by decide),
    count_ite_single_ne msgNonAscii msgBrackets (by decide),
    Nat.add_zero, Nat.zero_add]
  rfl

theorem generalIssues_count_fullStopIssues (t : Str) :
    (generalIssues t).count msgFullStop = b2n (has_full_stop_issue t) := by
  simp only [generalIssues, List.count_append, count_ite_single_eq,
    count_ite_single_ne msgTrailing msgFullStop (by decide),
    count_ite_single_ne msgDouble msgFullStop (by decide),
    count_ite_single_ne msgColon msgFullStop (by decide),
    count_ite_single_ne msgParenOpen msgFullStop (by decide),
    count_ite_single_ne msgParenClose msgFullStop (by decide),
    count_ite_single_ne msgHyphen msgFullStop (by decide),
    count_ite_single_ne msgBrackets msgFullStop (by decide),
    count_ite_single_ne msgTitle msgFullStop (by decide),
    count_ite_single_ne msgNonAscii msgFullStop (by decide),
    Nat.add_zero, Nat.zero_add]
  rfl

theorem generalIssues_count_titleCaseIssues (t : Str) :
    (generalIssues t).count msgTitle = b2n (is_title_case_issue t) := by
  simp only [generalIssues, List.count_append, count_ite_single_eq,
    count_ite_single_ne msgTrailing msgTitle (by decide),
    count_ite_single_ne msgDouble msgTitle (by decide),
    count_ite_single_ne msgColon msgTitle (by decide),
    count_ite_single_ne msgParenOpen msgTitle (by decide),
    count_ite_single_ne msgParenClose msgTitle (by decide),
    count_ite_single_ne msgHyphen msgTitle (by decide),
    count_ite_single_ne msgBrackets msgTitle (by decide),
    count_ite_single_ne msgFullStop msgTitle (by decide),
    count_ite_single_ne msgNonAscii msgTitle (by decide),
    Nat.add_zero, Nat.zero_add]
  rfl

theorem generalIssues_count_accentsNonAscii (t : Str) :
    (generalIssues t).count msgNonAscii = b2n (ruleNonAscii t) := by
  simp only [generalIssues, List.count_append, count_ite_single_eq,
    count_ite_single_ne msgTrailing msgNonAscii (by decide),
    count_ite_single_ne msgDouble msgNonAscii (by decide),
    count_ite_single_ne msgColon msgNonAscii (by decide),
    count_ite_single_ne msgParenOpen msgNonAscii (by decide),
    count_ite_single_ne msgParenClose msgNonAscii (by decide),
    count_ite_single_ne msgHyphen msgNonAscii (by decide),
    count_ite_single_ne msgBrackets msgNonAscii (by decide),
    count_ite_single_ne msgFullStop msgNonAscii (by decide),
    count_ite_single_ne msgTitle msgNonAscii (by decide),
    Nat.add_zero, Nat.zero_add]
  rfl

theorem generalIssues_count_gt (t : Str) : (generalIssues t).count msgGt = 0 := by
  simp only [generalIssues, List.count_append,
    count_ite_single_ne msgTrailing msgGt (by decide),
    count_ite_single_ne msgDouble msgGt (by decide),
    count_ite_single_ne msgColon msgGt (by decide),
    count_ite_single_ne msgParenOpen msgGt (by decide),
    count_ite_single_ne msgParenClose msgGt (by decide),
    count_ite_single_ne msgHyphen msgGt (by decide),
    count_ite_single_ne msgBrackets msgGt (by decide),
    count_ite_single_ne msgFullStop msgGt (by decide),
    count_ite_single_ne msgTitle msgGt (by decide),
    count_ite_single_ne msgNonAscii msgGt (by decide),
    Nat.add_zero, Nat.zero_add]

theorem generalIssues_countP_dup (t : Str) : (generalIssues t).countP isDupMsgB = 0 := by
  simp only [generalIssues, List.countP_append,
    countP_ite_single_false msgTrailing (by decide),
    countP_ite_single_false msgDouble (by decide),
    countP_ite_single_false msgColon (by decide),
    countP_ite_single_false msgParenOpen (by decide),
    countP_ite_single_false msgParenClose (by decide),
    countP_ite_single_false msgHyphen (by decide),
    countP_ite_single_false msgBrackets (by decide),
    countP_ite_single_false msgFullStop (by decide),
    countP_ite_single_false msgTitle (by decide),
    countP_ite_single_false msgNonAscii (by decide),
    Nat.add_zero, Nat.zero_add]

/-- Per-category issue totals of one issue list. -/
def issuesCounts (issues : List Str) : Summary :=
  { trailingSpaces := issues.count msgTrailing
    doubleSpaces := issues.count msgDouble
    colons := issues.count msgColon
    spacesAfterOpen := issues.count msgParenOpen
    spacesBeforeClose := issues.count msgParenClose
    spacesAroundHyphen := issues.count msgHyphen
    unbalancedBrackets := issues.count msgBrackets
    fullStopIssues := issues.count msgFullStop
    titleCaseIssues := issues.count msgTitle
    accentsNonAscii := issues.count msgNonAscii
    breadcrumbEndsGt := issues.count msgGt
    duplicateBreadcrumbs := issues.countP isDupMsgB }

/-- Per-category issue totals across a record list. -/
def countsSummary : List ErrorRecord → Summary
  | [] => {}
  | r :: rs => addSummary (issuesCounts r.issues) (countsSummary rs)

theorem issuesCounts_general (t : Str) : issuesCounts (generalIssues t) = generalDelta t := by
  simp only [issuesCounts, generalDelta, Summary.mk.injEq]
  exact ⟨generalIssues_count_trailingSpaces t, generalIssues_count_doubleSpaces t,
    generalIssues_count_colons t, generalIssues_count_spacesAfterOpen t,
    generalIssues_count_spacesBeforeClose t, generalIssues_count_spacesAroundHyphen t,
    generalIssues_count_unbalancedBrackets t, generalIssues_count_fullStopIssues t,
    generalIssues_count_titleCaseIssues t, generalIssues_count_accentsNonAscii t,
    generalIssues_count_gt t, generalIssues_countP_dup t⟩

theorem issuesCounts_path (seen : List (Str × Str)) (clean addr : Str) (h : clean ≠ []) :
    issuesCounts ((pathCellEval seen clean addr).1) = (pathCellEval seen clean addr).2.1 := by
  cases hl : lookupSeen seen clean with
  | some a =>
    have hpe : pathCellEval seen clean addr
        = (dupMsg a :: (if clean.getLast? == some '>' then [msgGt] else []),
           { breadcrumbEndsGt := b2n (clean.getLast? == some '>'),
             duplicateBreadcrumbs := 1 }, seen) := by
      simp [pathCellEval, h, hl]
    rw [hpe]
    simp only [issuesCounts, Summary.mk.injEq]
    refine ⟨?_, ?_, ?_, ?_, ?_, ?_, ?_, ?_, ?_, ?_, ?_, ?_⟩
    · rw [count_cons_ne (dupMsg a) msgTrailing (dupMsg_ne_general a msgTrailing (by decide)),
        count_ite_single_ne msgGt msgTrailing (by decide)]
    · rw [count_cons_ne (dupMsg a) msgDouble (dupMsg_ne_general a msgDouble (by decide)),
        count_ite_single_ne msgGt msgDouble (by decide)]
    · rw [count_cons_ne (dupMsg a) msgColon (dupMsg_ne_general a msgColon (by decide)),
        count_ite_single_ne msgGt msgColon (by decide)]
    · rw [count_cons_ne (dupMsg a) msgParenOpen (dupMsg_ne_general a msgParenOpen (by decide)),
        count_ite_single_ne msgGt msgParenOpen (by decide)]
    · rw [count_cons_ne (dupMsg a) msgParenClose (dupMsg_ne_general a msgParenClose (by decide)),
        count_ite_single_ne msgGt msgParenClose (by decide)]
    · rw [count_cons_ne (dupMsg a) msgHyphen (dupMsg_ne_general a msgHyphen (by decide)),
        count_ite_single_ne msgGt msgHyphen (by decide)]
    · rw [count_cons_ne (dupMsg a) msgBrackets (dupMsg_ne_general a msgBrackets (by decide)),
        count_ite_single_ne msgGt msgBrackets (by decide)]
    · rw [count_cons_ne (dupMsg a) msgFullStop (dupMsg_ne_general a msgFullStop (by decide)),
        count_ite_single_ne msgGt msgFullStop (by decide)]
    · rw [count_cons_ne (dupMsg a) msgTitle (dupMsg_ne_general a msgTitle (by decide)),
        count_ite_single_ne msgGt msgTitle (by decide)]
    · rw [count_cons_ne (dupMsg a) msgNonAscii (dupMsg_ne_general a msgNonAscii (by decide)),
        count_ite_single_ne msgGt msgNonAscii (by decide)]
    · rw [count_cons_ne (dupMsg a) msgGt (dupMsg_ne_gt a), count_ite_single_eq]
      rfl
    · rw [countP_cons_true (dupMsg a) (isDupMsgB_dupMsg a),
        countP_ite_single_false msgGt (by decide)]
  | none =>
    have hpe : pathCellEval seen clean addr
        = ((if clean.getLast? == some '>' then [msgGt] else []),
           { breadcrumbEndsGt := b2n (clean.getLast? == some '>'),
             duplicateBreadcrumbs := 0 }, seen ++ [(clean, addr)]) := by
      simp [pathCellEval, h, hl]
    rw [hpe]
    simp only [issuesCounts, Summary.mk.injEq]
    refine ⟨?_, ?_, ?_, ?_, ?_, ?_, ?_, ?_, ?_, ?_, ?_, ?_⟩
    · rw [count_ite_single_ne msgGt msgTrailing (by decide)]
    · rw [count_ite_single_ne msgGt msgDouble (by decide)]
    · rw [count_ite_single_ne msgGt msgColon (by decide)]
    · rw [count_ite_single_ne msgGt msgParenOpen (by decide)]
    · rw [count_ite_single_ne msgGt msgParenClose (by decide)]
    · rw [count_ite_single_ne msgGt msgHyphen (by decide)]
    · rw [count_ite_single_ne msgGt msgBrackets (by decide)]
    · rw [count_ite_single_ne msgGt msgFullStop (by decide)]
    · rw [count_ite_single_ne msgGt msgTitle (by decide)]
    · rw [count_ite_single_ne msgGt msgNonAscii (by decide)]
    · rw [count_ite_single_eq]
      rfl
    · rw [countP_ite_single_false msgGt (by decide)]

theorem countsSummary_recordList (addr text : Str) (issues : List Str) :
    countsSummary (recordList addr text issues) = issuesCounts issues := by
  by_cases h : issues = []
  · subst h
    show ({} : Summary) = issuesCounts []
    rw [show issuesCounts [] = ({} : Summary) from by decide]
  · rw [recordList, if_neg h]
    show addSummary (issuesCounts issues) (countsSummary []) = issuesCounts issues
    rw [show countsSummary [] = ({} : Summary) from rfl, addSummary_zero_right]

theorem countsSummary_cell (bcol : Option Str) (seen : List (Str × Str)) (sc : ScanCell) :
    countsSummary (recordList (addrOf sc) (textOf sc) (cellOut bcol seen sc).1)
      = (cellOut bcol seen sc).2.1 := by
  rw [countsSummary_recordList, cellOut_fst, cellOut_delta]
  by_cases h1 : stripWS (textOf sc) = []
  · rw [if_pos h1, if_pos h1]
    rw [show issuesCounts [] = ({} : Summary) from by decide]
  · rw [if_neg h1, if_neg h1]
    by_cases h2 : isBreadcrumbCell bcol sc.name = true
    · rw [if_pos h2, if_pos h2]
      exact issuesCounts_path seen _ _ h1
    · rw [if_neg h2, if_neg h2]
      exact issuesCounts_general _

theorem countsSummary_append : ∀ (a b : List ErrorRecord),
    countsSummary (a ++ b) = addSummary (countsSummary a) (countsSummary b)
  | [], b => by
    rw [List.nil_append]
    exact (addSummary_zero_left _).symm
  | r :: rs, b => by
    rw [List.cons_append]
    show addSummary (issuesCounts r.issues) (countsSummary (rs ++ b)) = _
    rw [countsSummary_append rs b]
    show _ = addSummary (addSummary (issuesCounts r.issues) (countsSummary rs)) (countsSummary b)
    rw [addSummary_assoc]

theorem countsSummary_newErrors (bcol : Option Str) :
    ∀ (l : List ScanCell) (seen : List (Str × Str)),
      countsSummary (newErrors bcol seen l) = newDelta bcol seen l
  | [], _ => rfl
  | sc :: rest, seen => by
    rw [newErrors, newDelta, countsSummary_append, countsSummary_cell,
      countsSummary_newErrors bcol rest _]

/-- Claim C9 as amended: in every run each Summary counter equals the total
number of issues of its rule category across all issue records (one increment
per matching occurrence); the single cell `"Hello  World "` yields exactly
the three issues trailing-whitespace, double-space and title-case, in rule
order, and increments exactly those three counters. -/
theorem c9_summary_counters_are_category_totals :
    (∀ g : Grid, (validate_audit_sheet g).2 = countsSummary (validate_audit_sheet g).1)
    ∧ validate_audit_sheet { cols := ["X".data], rows := [[some "Hello  World ".data]] } =
        ([{ cell := "A2".data, value := "Hello  World ".data,
            issues := [msgTrailing, msgDouble, msgTitle] }],
         { trailingSpaces := 1, doubleSpaces := 1, titleCaseIssues := 1 }) := by
  constructor
  · intro g
    show (runAudit g).summary = countsSummary (runAudit g).errors
    rw [runAudit_eq, foldl_stepCell_eq]
    show addSummary {} (newDelta (detectBreadcrumbCol g.cols) [] (scanOf g))
        = countsSummary ([] ++ newErrors (detectBreadcrumbCol g.cols) [] (scanOf g))
    rw [List.nil_append, addSummary_zero_left, countsSummary_newErrors]
  · decide

/-- Counterexample to claim C9 as stated: the cell `"Hello  World "` does not
leave the other counters unchanged — the title-case rule also fires (the
second word starts with an uppercase letter), so the title-case counter ends
at 1, not 0. -/
theorem c9_hello_world_counterexample :
    (validate_audit_sheet
        { cols := ["X".data], rows := [[some "Hello  World ".data]] }).2.titleCaseIssues = 1 := by
  decide

end ExcelAudit
